import Mathlib

/-!
Verification of the point-cloud/color-sampling pipeline of `d405_pipeline.py`
(RealSense D405 wrapper).  The nontrivial computation is in `stream_data`:

    cw, ch = color_image.shape[:2][::-1]
    v, u = (texcoords * (cw, ch) + 0.5).astype(np.uint32).T
    np.clip(u, 0, ch - 1, out=u)
    np.clip(v, 0, cw - 1, out=v)
    pc_color = color_image[u, v] / 255
    pc_color[:, [0, 2]] = pc_color[:, [2, 0]]

Texture coordinates are modelled as exact rationals; `astype(np.uint32)`
is truncation toward zero followed by reduction modulo 2^32 (the numpy
float-to-unsigned cast behaviour on the supported platforms).  Images are
total functions from (row, column, channel) to byte values; the driver
(librealsense) is an external collaborator and its outputs (vertex and
texture-coordinate buffers, frames) are inputs of the model.
-/

/-- Truncation of a rational toward zero (the C-cast fractional discard
used by `astype`). -/
def truncQ (x : ℚ) : ℤ := if 0 ≤ x then ⌊x⌋ else -⌊-x⌋

/-- `astype(np.uint32)` applied to a scalar: truncate toward zero, then
reduce modulo 2^32 into an unsigned 32-bit value. -/
def toUint32 (x : ℚ) : ℕ := ((truncQ x) % (2 ^ 32 : ℤ)).toNat

/-- `(texcoords * (cw, ch) + 0.5).astype(np.uint32)`: scale each texture
coordinate pair componentwise by `(cw, ch)`, add 0.5, cast to uint32. -/
def scaledIdx (cw ch : ℕ) (texcoords : List (ℚ × ℚ)) : List (ℕ × ℕ) :=
  texcoords.map (fun t => (toUint32 (t.1 * (cw : ℚ) + 1/2), toUint32 (t.2 * (ch : ℚ) + 1/2)))

/-- First row of the transposed index array: the destructuring
`v, u = (...).T` binds `v` to the first component of each pair. -/
def vRaw (cw ch : ℕ) (texcoords : List (ℚ × ℚ)) : List ℕ :=
  (scaledIdx cw ch texcoords).map Prod.fst

/-- Second row of the transposed index array: `u` is bound to the second
component of each pair. -/
def uRaw (cw ch : ℕ) (texcoords : List (ℚ × ℚ)) : List ℕ :=
  (scaledIdx cw ch texcoords).map Prod.snd

/-- `np.clip(u, 0, ch - 1, out=u)`. -/
def uClip (cw ch : ℕ) (texcoords : List (ℚ × ℚ)) : List ℕ :=
  (uRaw cw ch texcoords).map (fun x => min (max x 0) (ch - 1))

/-- `np.clip(v, 0, cw - 1, out=v)`. -/
def vClip (cw ch : ℕ) (texcoords : List (ℚ × ℚ)) : List ℕ :=
  (vRaw cw ch texcoords).map (fun x => min (max x 0) (cw - 1))

/-- `color_image[u, v] / 255`: fancy-indexing gather of one pixel per
(row-index, column-index) pair, each byte normalized to [0, 1].  The first
numpy index (`us` here) selects along axis 0 (rows), the second along
axis 1 (columns). -/
def gatherColors (img : ℕ → ℕ → Fin 3 → ℕ) (us vs : List ℕ) : List (Fin 3 → ℚ) :=
  List.zipWith (fun ui vi => fun c => (img ui vi c : ℚ) / 255) us vs

/-- `pc_color[:, [0, 2]] = pc_color[:, [2, 0]]`: index-swap assignment of
channels 0 and 2; channel 1 is not assigned. -/
def swap02 (f : Fin 3 → ℚ) : Fin 3 → ℚ :=
  fun c => if c = 0 then f 2 else if c = 2 then f 0 else f 1

/-- The whole `pc_color` computation of `stream_data` on a color image of
`H` rows and `W` columns (so `cw = W`, `ch = H` after
`color_image.shape[:2][::-1]`). -/
def pc_color (H W : ℕ) (img : ℕ → ℕ → Fin 3 → ℕ) (texcoords : List (ℚ × ℚ)) :
    List (Fin 3 → ℚ) :=
  (gatherColors img (uClip W H texcoords) (vClip W H texcoords)).map swap02

/-- One entry of the gather before the channel swap: the pixel at row
`min (toUint32 (t.2 * H + 0.5)) (H - 1)` and column
`min (toUint32 (t.1 * W + 0.5)) (W - 1)`, normalized by 255. -/
def sampleColor (H W : ℕ) (img : ℕ → ℕ → Fin 3 → ℕ) (t : ℚ × ℚ) : Fin 3 → ℚ :=
  fun c =>
    (img (min (toUint32 (t.2 * (H : ℚ) + 1/2)) (H - 1))
         (min (toUint32 (t.1 * (W : ℚ) + 1/2)) (W - 1)) c : ℚ) / 255

lemma pc_color_eq_map (H W : ℕ) (img : ℕ → ℕ → Fin 3 → ℕ) (texcoords : List (ℚ × ℚ)) :
    pc_color H W img texcoords = texcoords.map (fun t => swap02 (sampleColor H W img t)) := by
  induction texcoords with
  | nil => rfl
  | cons t ts ih =>
    simp only [pc_color, uClip, vClip, uRaw, vRaw, scaledIdx, gatherColors, sampleColor,
      List.map_cons, List.zipWith_cons_cons, Nat.max_zero] at ih ⊢
    rw [ih]
    rfl

/-- One acquired frame pair together with the buffers the librealsense
driver computes from it (`pc.calculate` / `get_vertices` /
`get_texture_coordinates`).  The driver is an external collaborator, so
its outputs are inputs of the model.  `colorImage` maps (row, column,
channel) to a byte value; the color image has `colorH` rows and `colorW`
columns. -/
structure DriverFrame where
  depthH : ℕ
  depthW : ℕ
  colorH : ℕ
  colorW : ℕ
  depthImage : ℕ → ℕ → ℕ
  colorImage : ℕ → ℕ → Fin 3 → ℕ
  verts : List (ℚ × ℚ × ℚ)
  texcoords : List (ℚ × ℚ)

/-- `stream_data`: returns the vertex buffer, the per-vertex colors
computed by the clip/gather/swap pipeline (`cw, ch =
color_image.shape[:2][::-1]`, so `cw` is the column count and `ch` the
row count), the raw depth image and the raw color image. -/
def stream_data (f : DriverFrame) :
    List (ℚ × ℚ × ℚ) × List (Fin 3 → ℚ) × (ℕ → ℕ → ℕ) × (ℕ → ℕ → Fin 3 → ℕ) :=
  (f.verts, pc_color f.colorH f.colorW f.colorImage f.texcoords, f.depthImage, f.colorImage)

/-- `RealSenseD405.get_all_data` simply delegates to `stream_data`. -/
def get_all_data (f : DriverFrame) :
    List (ℚ × ℚ × ℚ) × List (Fin 3 → ℚ) × (ℕ → ℕ → ℕ) × (ℕ → ℕ → Fin 3 → ℕ) :=
  stream_data f

/-- A connected device as reported by the librealsense context. -/
structure RsDevice where
  name : String
  serial : String

/-- `find_devices`: builds the serial list of all connected devices and
returns it together with the context (modelled by its device list).  The
second component of the outer pair is the log of printed lines: when no
device is connected the condition is only printed, and the serial list
comes back empty. -/
def find_devices (ctxDevices : List RsDevice) :
    (List String × List RsDevice) × List String :=
  if ctxDevices.length > 0 then
    ((ctxDevices.map (fun d => d.serial), ctxDevices),
      ctxDevices.map (fun d => "Found device:  " ++ d.name ++ "   " ++ d.serial))
  else (([], ctxDevices), ["No Intel Device connected"])

/-- Stream pixel formats used by the wrapper (`rs.format.z16` for depth,
`rs.format.bgr8` for color). -/
inductive RsFormat where
  | z16 : RsFormat
  | bgr8 : RsFormat
deriving DecidableEq

/-- One `config.enable_stream` call: resolution, pixel format, framerate. -/
structure StreamConfig where
  width : ℕ
  height : ℕ
  fmt : RsFormat
  fps : ℕ
deriving DecidableEq

def DEPTH_RESOLUTION_MID : ℕ × ℕ := (848, 480)
def COLOR_RESOLUTION_MID : ℕ × ℕ := (848, 480)
def DEPTH_RESOLUTION_HIGH : ℕ × ℕ := (1280, 720)
def COLOR_RESOLUTION_HIGH : ℕ × ℕ := (1280, 720)
def DEPTH_FPS : ℕ := 30
def COLOR_FPS : ℕ := 30

/-- The stream-configuration part of `RealSenseD405.__init__`: the
`assert resolution in [mid, high]` guard runs before any
`enable_stream`, then the depth stream is enabled at the depth
resolution with format z16 and the color stream at the color resolution
with format bgr8.  A failed assertion is modelled as `Except.error`. -/
def realSenseD405Init (resolution : String) : Except String (List StreamConfig) :=
  if resolution = "mid" ∨ resolution = "high" then
    let dres := if resolution = "high" then DEPTH_RESOLUTION_HIGH else DEPTH_RESOLUTION_MID
    let cres := if resolution = "high" then COLOR_RESOLUTION_HIGH else COLOR_RESOLUTION_MID
    Except.ok [⟨dres.1, dres.2, RsFormat.z16, DEPTH_FPS⟩,
               ⟨cres.1, cres.2, RsFormat.bgr8, COLOR_FPS⟩]
  else Except.error "AssertionError"

/-- Modelled from the spec: the external driver/device state that
`stop()` and `reset()` act on.  The driver itself is an out-of-scope
collaborator; per the spec its pipeline-stop operation leaves the stream
inactive and its hardware-reset operation puts the device in its
power-on reset state, both regardless of the current state
(mock semantics, spec section 8). -/
structure ExtState where
  streaming : Bool
  deviceInReset : Bool
deriving DecidableEq

/-- Modelled from the spec: `rs.pipeline.stop` on the mock driver —
the stream is inactive afterwards. -/
def pipelineStop (s : ExtState) : ExtState := { s with streaming := false }

/-- Modelled from the spec: `device.hardware_reset` on the mock driver —
the device is in its power-on reset state afterwards (streaming halts). -/
def hardware_reset (_ : ExtState) : ExtState :=
  { streaming := false, deviceInReset := true }

/-- `RealSenseD405.stop`: delegates to the pipeline's stop. -/
def realSenseD405Stop (s : ExtState) : ExtState := pipelineStop s

/-- `RealSenseD405.reset`: delegates to the device's hardware reset
(the trailing `del self` does not touch external state). -/
def realSenseD405Reset (s : ExtState) : ExtState := hardware_reset s

/-- Assembly of one marker pose in `recognize_ar_marker`:
`homomat = np.eye(4); homomat[:3, :3] = rot; homomat[:3, 3] = pos`. -/
def homomat (rot : Fin 3 → Fin 3 → ℚ) (pos : Fin 3 → ℚ) : Fin 4 → Fin 4 → ℚ :=
  fun i j =>
    if hi : (i : ℕ) < 3 then
      if hj : (j : ℕ) < 3 then rot ⟨i, hi⟩ ⟨j, hj⟩ else pos ⟨i, hi⟩
    else if i = j then 1 else 0

/-- `recognize_ar_marker` after the detector and pose estimator ran:
`ids` is the detector's id array (`none` when no marker was found) and
`poses` the per-marker (rotation matrix, translation) pairs from
`estimatePoseSingleMarkers` + `cv2.Rodrigues`.  When `ids` is `none`
both loops are skipped and the empty dictionary is returned; otherwise
each id is mapped to its assembled 4x4 matrix, in order. -/
def recognize_ar_marker (ids : Option (List ℤ))
    (poses : List ((Fin 3 → Fin 3 → ℚ) × (Fin 3 → ℚ))) :
    List (ℤ × (Fin 4 → Fin 4 → ℚ)) :=
  match ids with
  | none => []
  | some l => l.zip (poses.map (fun p => homomat p.1 p.2))

/-- The uint32 cast of a nonnegative value below 2^32 is its floor. -/
lemma toUint32_of_nonneg {x : ℚ} (h0 : 0 ≤ x) (hlt : x < 2 ^ 32) :
    toUint32 x = (⌊x⌋).toNat := by
  have hf0 : (0 : ℤ) ≤ ⌊x⌋ := Int.floor_nonneg.mpr h0
  have hflt : ⌊x⌋ < 2 ^ 32 := by
    apply Int.floor_lt.mpr
    push_cast
    exact hlt
  rw [toUint32, truncQ, if_pos h0, Int.emod_eq_of_lt hf0 hflt]

/-- The uint32 cast of a value in [-2^32, -1] wraps around: it equals the
toward-zero truncation plus 2^32. -/
lemma toUint32_of_neg {x : ℚ} (h1 : x ≤ -1) (h2 : -(2 ^ 32 : ℚ) < x) :
    toUint32 x = (-⌊-x⌋ + 2 ^ 32).toNat := by
  have hx : ¬ (0 ≤ x) := by linarith
  have hup : 1 ≤ ⌊-x⌋ := by
    apply Int.le_floor.mpr
    push_cast
    linarith
  have hlow : ⌊-x⌋ < 2 ^ 32 := by
    apply Int.floor_lt.mpr
    push_cast
    linarith
  rw [toUint32, truncQ, if_neg hx]
  have hmod : (-⌊-x⌋) % (2 ^ 32 : ℤ) = -⌊-x⌋ + 2 ^ 32 := by omega
  rw [hmod]

/-- Claim C1: every pixel access of the per-vertex color gather in
`stream_data` is in bounds: the row indices `u` are clamped into
[0, height-1] and the column indices `v` into [0, width-1], so a
texture coordinate whose raw index is out of range samples the clamped
edge pixel (`min raw (dim - 1)`) instead of leaving the image. -/
theorem pc_color_gather_in_bounds (H W : ℕ) (tc : List (ℚ × ℚ))
    (hH : 0 < H) (hW : 0 < W) :
    (∀ u ∈ uClip W H tc, u < H) ∧ (∀ v ∈ vClip W H tc, v < W) ∧
    uClip W H tc = (uRaw W H tc).map (fun x => min x (H - 1)) ∧
    vClip W H tc = (vRaw W H tc).map (fun x => min x (W - 1)) := by
  refine ⟨?_, ?_, ?_, ?_⟩
  · intro u hu
    obtain ⟨x, _, hx⟩ := List.mem_map.mp hu
    omega
  · intro v hv
    obtain ⟨x, _, hx⟩ := List.mem_map.mp hv
    omega
  · simp [uClip]
  · simp [vClip]

/-- Claim C1, instantiated at a concrete texture-coordinate list. -/
theorem pc_color_gather_in_bounds_witness :
    (∀ u ∈ uClip 1 1 [((0 : ℚ), (0 : ℚ))], u < 1) ∧
    (∀ v ∈ vClip 1 1 [((0 : ℚ), (0 : ℚ))], v < 1) ∧
    uClip 1 1 [((0 : ℚ), (0 : ℚ))] =
      (uRaw 1 1 [((0 : ℚ), (0 : ℚ))]).map (fun x => min x 0) ∧
    vClip 1 1 [((0 : ℚ), (0 : ℚ))] =
      (vRaw 1 1 [((0 : ℚ), (0 : ℚ))]).map (fun x => min x 0) :=
  pc_color_gather_in_bounds 1 1 [((0 : ℚ), (0 : ℚ))] Nat.one_pos Nat.one_pos

/-- The gather as claim C2 reads the code: the `ch`-clipped index `u`
used as the column index and the `cw`-clipped index `v` as the row index
of the color-image access (`color_image[v, u]`). -/
def pc_color_claimed (H W : ℕ) (img : ℕ → ℕ → Fin 3 → ℕ) (tc : List (ℚ × ℚ)) :
    List (Fin 3 → ℚ) :=
  (gatherColors img (vClip W H tc) (uClip W H tc)).map swap02

/-- A 2x2 test image whose byte value encodes its own (row, column)
position, on every channel. -/
def imgRC : ℕ → ℕ → Fin 3 → ℕ := fun r c _ => 10 * r + c

/-- Claim C2 fails on the code: on a concrete image and texture
coordinate, the color `stream_data` computes differs from the gather the
claim describes (with `u` as column index and `v` as row index), so `u`
is not the column index of the access. -/
theorem pc_color_axis_counterexample :
    ((pc_color 2 2 imgRC [((0 : ℚ), (1/2 : ℚ))]).headI) 1 ≠
      ((pc_color_claimed 2 2 imgRC [((0 : ℚ), (1/2 : ℚ))]).headI) 1 := by
  norm_num [pc_color, pc_color_claimed, gatherColors, uClip, vClip, uRaw, vRaw,
    scaledIdx, toUint32, truncQ, swap02, imgRC, List.headI]

/-- Claim C2 (amended): in `stream_data`'s gather `color_image[u, v]`,
the index `u` — the one clipped against the color image's row count
`ch` — is the ROW index (numpy axis 0), and `v` — clipped against the
column count `cw` — is the COLUMN index (axis 1): each index is clipped
against the same dimension as the axis it selects, so the variable
names, not the axes, are what is swapped. -/
theorem pc_color_axis_association (H W : ℕ) (img : ℕ → ℕ → Fin 3 → ℕ)
    (tc : List (ℚ × ℚ)) :
    pc_color H W img tc =
      tc.map (fun t => swap02 (fun c =>
        (img (min (toUint32 (t.2 * (H : ℚ) + 1/2)) (H - 1))
             (min (toUint32 (t.1 * (W : ℚ) + 1/2)) (W - 1)) c : ℚ) / 255)) :=
  pc_color_eq_map H W img tc

/-- Claim C3: each per-vertex color produced by `stream_data` has its
first and third channels swapped relative to the (normalized) pixel
sampled from the source image, while the middle channel is unchanged. -/
theorem pc_color_channel_swap (H W : ℕ) (img : ℕ → ℕ → Fin 3 → ℕ)
    (tc : List (ℚ × ℚ)) (i : ℕ) (hi : i < tc.length) :
    ∃ hlen : i < (pc_color H W img tc).length,
      ((pc_color H W img tc).get ⟨i, hlen⟩) 0 = sampleColor H W img (tc.get ⟨i, hi⟩) 2 ∧
      ((pc_color H W img tc).get ⟨i, hlen⟩) 1 = sampleColor H W img (tc.get ⟨i, hi⟩) 1 ∧
      ((pc_color H W img tc).get ⟨i, hlen⟩) 2 = sampleColor H W img (tc.get ⟨i, hi⟩) 0 := by
  have hlen : i < (pc_color H W img tc).length := by
    rw [pc_color_eq_map, List.length_map]
    exact hi
  have key : (pc_color H W img tc).get ⟨i, hlen⟩
      = swap02 (sampleColor H W img (tc.get ⟨i, hi⟩)) := by
    rw [List.get_of_eq (pc_color_eq_map H W img tc)]
    simp
  refine ⟨hlen, ?_, ?_, ?_⟩ <;> rw [key] <;> rfl

/-- Claim C3, instantiated on a concrete image and texture coordinate. -/
theorem pc_color_channel_swap_witness :
    ∃ hlen : 0 < (pc_color 1 1 (fun _ _ c => (c : ℕ)) [((0 : ℚ), (0 : ℚ))]).length,
      ((pc_color 1 1 (fun _ _ c => (c : ℕ)) [((0 : ℚ), (0 : ℚ))]).get ⟨0, hlen⟩) 0 =
        sampleColor 1 1 (fun _ _ c => (c : ℕ))
          (([((0 : ℚ), (0 : ℚ))] : List (ℚ × ℚ)).get ⟨0, Nat.one_pos⟩) 2 ∧
      ((pc_color 1 1 (fun _ _ c => (c : ℕ)) [((0 : ℚ), (0 : ℚ))]).get ⟨0, hlen⟩) 1 =
        sampleColor 1 1 (fun _ _ c => (c : ℕ))
          (([((0 : ℚ), (0 : ℚ))] : List (ℚ × ℚ)).get ⟨0, Nat.one_pos⟩) 1 ∧
      ((pc_color 1 1 (fun _ _ c => (c : ℕ)) [((0 : ℚ), (0 : ℚ))]).get ⟨0, hlen⟩) 2 =
        sampleColor 1 1 (fun _ _ c => (c : ℕ))
          (([((0 : ℚ), (0 : ℚ))] : List (ℚ × ℚ)).get ⟨0, Nat.one_pos⟩) 0 :=
  pc_color_channel_swap 1 1 (fun _ _ c => (c : ℕ)) [((0 : ℚ), (0 : ℚ))] 0 Nat.one_pos

/-- Claim C4: the vertex array and the color array returned by
`stream_data` (and by `get_all_data`, which delegates to it) have the
same number of rows, equal to the pixel count of the depth map, given
the driver's contract that it returns one vertex and one texture
coordinate per depth pixel. -/
theorem stream_data_matching_lengths (f : DriverFrame)
    (hv : f.verts.length = f.depthH * f.depthW)
    (ht : f.texcoords.length = f.verts.length) :
    (stream_data f).1.length = f.depthH * f.depthW ∧
    (stream_data f).2.1.length = f.depthH * f.depthW ∧
    (get_all_data f).2.1.length = (get_all_data f).1.length := by
  have hc : (pc_color f.colorH f.colorW f.colorImage f.texcoords).length
      = f.texcoords.length := by
    rw [pc_color_eq_map, List.length_map]
  refine ⟨hv, ?_, ?_⟩ <;> simp [stream_data, get_all_data, hc, ht, hv]

/-- Claim C4, instantiated on a concrete 1x1 frame. -/
theorem stream_data_matching_lengths_witness :
    (stream_data ⟨1, 1, 1, 1, fun _ _ => 0, fun _ _ _ => 0, [(0, 0, 0)], [(0, 0)]⟩).1.length
      = 1 * 1 ∧
    (stream_data ⟨1, 1, 1, 1, fun _ _ => 0, fun _ _ _ => 0, [(0, 0, 0)], [(0, 0)]⟩).2.1.length
      = 1 * 1 ∧
    (get_all_data ⟨1, 1, 1, 1, fun _ _ => 0, fun _ _ _ => 0, [(0, 0, 0)], [(0, 0)]⟩).2.1.length
      = (get_all_data ⟨1, 1, 1, 1, fun _ _ => 0, fun _ _ _ => 0, [(0, 0, 0)], [(0, 0)]⟩).1.length :=
  stream_data_matching_lengths
    ⟨1, 1, 1, 1, fun _ _ => 0, fun _ _ _ => 0, [(0, 0, 0)], [(0, 0)]⟩ rfl rfl

/-- Claim C5: the raw (pre-clamp) pixel indices of the color gather are
exactly the uint32 casts of `t * dimension + 0.5` — the first texture
component scaled by the column count `cw`, the second by the row count
`ch` — and for a nonnegative scaled coordinate that cast is
round-to-nearest, that is the floor of `t * d + 0.5`. -/
theorem texcoord_index_rounding (cw ch : ℕ) (tc : List (ℚ × ℚ)) :
    vRaw cw ch tc = tc.map (fun t => toUint32 (t.1 * (cw : ℚ) + 1/2)) ∧
    uRaw cw ch tc = tc.map (fun t => toUint32 (t.2 * (ch : ℚ) + 1/2)) ∧
    (∀ x : ℚ, 0 ≤ x → x + 1/2 < 2 ^ 32 →
      toUint32 (x + 1/2) = (⌊x + 1/2⌋).toNat) := by
  refine ⟨?_, ?_, ?_⟩
  · simp [vRaw, scaledIdx, List.map_map]
  · simp [uRaw, scaledIdx, List.map_map]
  · intro x hx hlt
    exact toUint32_of_nonneg (by linarith) hlt

/-- Claim C5, instantiated at a concrete scaled coordinate. -/
theorem texcoord_index_rounding_witness :
    toUint32 ((3/2 : ℚ) + 1/2) = (⌊(3/2 : ℚ) + 1/2⌋).toNat :=
  (texcoord_index_rounding 4 4 []).2.2 (3/2) (by norm_num) (by norm_num)

/-- Claim C6: `resolution = mid` enables both the depth and the color
stream at 848x480 (depth z16, color bgr8, both 30 fps), `high` enables
both at 1280x720, and every other resolution string trips the assertion
before any stream is enabled. -/
theorem realSenseD405Init_resolutions :
    realSenseD405Init "mid" =
      Except.ok [⟨848, 480, RsFormat.z16, 30⟩, ⟨848, 480, RsFormat.bgr8, 30⟩] ∧
    realSenseD405Init "high" =
      Except.ok [⟨1280, 720, RsFormat.z16, 30⟩, ⟨1280, 720, RsFormat.bgr8, 30⟩] ∧
    ∀ r : String, r ≠ "mid" → r ≠ "high" →
      realSenseD405Init r = Except.error "AssertionError" := by
  refine ⟨rfl, rfl, ?_⟩
  intro r h1 h2
  simp [realSenseD405Init, h1, h2]

/-- Claim C6, instantiated at a rejected resolution string. -/
theorem realSenseD405Init_resolutions_witness :
    realSenseD405Init "low" = Except.error "AssertionError" :=
  realSenseD405Init_resolutions.2.2 "low" (by decide) (by decide)

/-- Claim C7: `stop()` and `reset()` are idempotent on the external
driver/device state — a second call leaves the state exactly where the
first call put it (and, the functions being total, neither call can
crash on an already-stopped stream). -/
theorem stop_reset_idempotent (s : ExtState) :
    realSenseD405Stop (realSenseD405Stop s) = realSenseD405Stop s ∧
    realSenseD405Reset (realSenseD405Reset s) = realSenseD405Reset s :=
  ⟨rfl, rfl⟩

/-- Claim C8: with no connected devices, `find_devices` returns normally
with an empty serial list paired with the context, and only logs the
no-device condition. -/
theorem find_devices_empty_no_raise :
    find_devices [] = (([], []), ["No Intel Device connected"]) := rfl

/-- Claim C9: when the detector reports no ids, `recognize_ar_marker`
returns the empty dictionary, and when ids are present every value of
the returned dictionary is a 4x4 homogeneous matrix whose bottom row is
[0, 0, 0, 1]. -/
theorem recognize_ar_marker_poses :
    (∀ poses, recognize_ar_marker none poses = []) ∧
    (∀ ids poses kv, kv ∈ recognize_ar_marker (some ids) poses →
      kv.2 3 0 = 0 ∧ kv.2 3 1 = 0 ∧ kv.2 3 2 = 0 ∧ kv.2 3 3 = 1) := by
  refine ⟨fun _ => rfl, ?_⟩
  intro ids poses kv hkv
  obtain ⟨k, M⟩ := kv
  obtain ⟨hk, hM⟩ := List.of_mem_zip hkv
  obtain ⟨p, hp, hpe⟩ := List.mem_map.mp hM
  refine ⟨?_, ?_, ?_, ?_⟩ <;> rw [← hpe] <;> rfl

/-- Claim C9, instantiated on one detected marker with a zero pose. -/
theorem recognize_ar_marker_poses_witness :
    ((5 : ℤ), homomat (fun _ _ => 0) (fun _ => 0)).2 3 0 = 0 ∧
    ((5 : ℤ), homomat (fun _ _ => 0) (fun _ => 0)).2 3 1 = 0 ∧
    ((5 : ℤ), homomat (fun _ _ => 0) (fun _ => 0)).2 3 2 = 0 ∧
    ((5 : ℤ), homomat (fun _ _ => 0) (fun _ => 0)).2 3 3 = 1 :=
  recognize_ar_marker_poses.2 [5] [((fun _ _ => 0), (fun _ => 0))]
    ((5 : ℤ), homomat (fun _ _ => 0) (fun _ => 0))
    (by simp [recognize_ar_marker])

/-- Claim C10 fails on the code: the texture coordinate -1/4 over a
dimension of 4 pixels scales to the negative value -1/2, yet the cast
truncates it to 0, so the clamped index is the NEAR edge 0, not the far
edge 3 the claim asserts for every negative scaled value. -/
theorem texcoord_negative_counterexample :
    ((-1/4 : ℚ) * ((4 : ℕ) : ℚ) + 1/2 < 0) ∧
    min (max (toUint32 ((-1/4 : ℚ) * ((4 : ℕ) : ℚ) + 1/2)) 0) ((4 : ℕ) - 1) = 0 ∧
    (0 : ℕ) ≠ (4 : ℕ) - 1 := by
  refine ⟨by norm_num, ?_, by norm_num⟩
  norm_num [toUint32, truncQ]

/-- Claim C10 (amended): a texture coordinate whose scaled value
`t * d + 0.5` is at most -1 (and within one wrap, i.e. above
`d - 2^32`) is cast to an index that wraps modulo 2^32 to at least `d`,
so the clamp selects the far edge `d - 1`; scaled values in (-1, 0)
instead truncate to 0 and select the near edge. -/
theorem texcoord_negative_wraps_to_far_edge (t : ℚ) (d : ℕ) (hd : 0 < d)
    (h1 : t * (d : ℚ) + 1/2 ≤ -1)
    (h2 : (d : ℚ) - 2 ^ 32 ≤ t * (d : ℚ) + 1/2) :
    (d : ℕ) ≤ toUint32 (t * (d : ℚ) + 1/2) ∧
    min (max (toUint32 (t * (d : ℚ) + 1/2)) 0) (d - 1) = d - 1 := by
  set x : ℚ := t * (d : ℚ) + 1/2 with hxdef
  have hdpos : (0 : ℚ) < (d : ℚ) := by exact_mod_cast hd
  have hx2 : -(2 ^ 32 : ℚ) < x := by linarith
  have hcast : toUint32 x = (-⌊-x⌋ + 2 ^ 32).toNat := toUint32_of_neg h1 hx2
  have hfl : (d : ℤ) - 2 ^ 32 ≤ -⌊-x⌋ := by
    have hub : ⌊-x⌋ ≤ 2 ^ 32 - (d : ℤ) := by
      have hle : -x ≤ ((2 ^ 32 - (d : ℤ) : ℤ) : ℚ) := by
        push_cast
        linarith
      calc ⌊-x⌋ ≤ ⌊((2 ^ 32 - (d : ℤ) : ℤ) : ℚ)⌋ := Int.floor_le_floor hle
        _ = 2 ^ 32 - (d : ℤ) := Int.floor_intCast _
    omega
  have hfu : -⌊-x⌋ ≤ -1 := by
    have : (1 : ℤ) ≤ ⌊-x⌋ := by
      apply Int.le_floor.mpr
      push_cast
      linarith
    omega
  constructor
  · rw [hcast]
    omega
  · rw [hcast]
    omega

/-- Claim C10 (amended), instantiated at a concrete texture coordinate
whose scaled value truncates to a negative integer. -/
theorem texcoord_negative_wraps_to_far_edge_witness :
    (4 : ℕ) ≤ toUint32 ((-2 : ℚ) * ((4 : ℕ) : ℚ) + 1/2) ∧
    min (max (toUint32 ((-2 : ℚ) * ((4 : ℕ) : ℚ) + 1/2)) 0) ((4 : ℕ) - 1) = (4 : ℕ) - 1 :=
  texcoord_negative_wraps_to_far_edge (-2) 4 (by norm_num) (by norm_num) (by norm_num)
